import Mathlib

/-!
Shallow embedding of `src/server/server.py` (a Flask façade over DuckDB with
the duckpgq graph extension).  The module-level globals, the schema-index
building loop of `initialize_db`, and the four request handlers are translated
into pure Lean functions.  Python dicts (which preserve insertion order) are
modelled as association lists with first-match lookup; Python sets are
modelled as duplicate-free lists built by insertion-order `setAdd`.  Fallible
external calls (DuckDB queries, extension loading) are abstracted as explicit
outcome parameters (`Except` values / boolean success flags), so every
definition is executable and every handler is a total function of its inputs.
-/

namespace NvlDuck

/-- One element of `outgoing_relations[source]`: the dict
`{"relation": ..., "destination": ...}` built in `initialize_db`. -/
structure OutRel where
  relation : String
  destination : String
deriving DecidableEq

/-- One element of `incoming_relations[destination]`: the dict
`{"relation": ..., "source": ...}` built in `initialize_db`. -/
structure InRel where
  relation : String
  source : String
deriving DecidableEq

/-- One row of the `__duckpgq_internal` catalog table, restricted to the four
columns the server reads (`property_graph`, `source_table`,
`destination_table`, `label`).  The server issues one single-column SELECT per
column and zips the results; since all four selects scan the same table in the
same order, iterating over rows of this record type is the same iteration. -/
structure CatalogRow where
  property_graph : Option String
  source_table : Option String
  destination_table : Option String
  label : Option String
deriving DecidableEq

/-- Insertion-ordered model of a Python dict with `String` keys. -/
abbrev PyDict (α : Type) := List (String × α)

/-- `k in d` for a Python dict: first-match lookup. -/
def dictFind {α : Type} : PyDict α → String → Option α
  | [], _ => none
  | (k', v) :: rest, k => if k' = k then some v else dictFind rest k

/-- `node_label in outgoing_relations` membership test. -/
def dictHas {α : Type} (m : PyDict α) (k : String) : Bool :=
  (dictFind m k).isSome

/-- The value list stored under a key (empty when the key is absent; the code
only reads a key after testing membership, so the default is never observed). -/
def lookAt {α : Type} (m : PyDict (List α)) (k : String) : List α :=
  (dictFind m k).getD []

/-- The duplicate test of `initialize_db` for outgoing entries:
`existing["relation"] == relation_r[0] and existing["destination"] == destination_r[0]`. -/
def OutRel.sameFields (e d : OutRel) : Bool :=
  e.relation == d.relation && e.destination == d.destination

/-- The duplicate test of `initialize_db` for incoming entries. -/
def InRel.sameFields (e d : InRel) : Bool :=
  e.relation == d.relation && e.source == d.source

/-- `initialize_db`'s "check for duplicates before adding" followed by the
conditional `append`, for an outgoing entry list. -/
def dedupAppendOut (l : List OutRel) (d : OutRel) : List OutRel :=
  if l.any (fun e => e.sameFields d) then l else l ++ [d]

/-- `initialize_db`'s "check for duplicates before adding" followed by the
conditional `append`, for an incoming entry list. -/
def dedupAppendIn (l : List InRel) (d : InRel) : List InRel :=
  if l.any (fun e => e.sameFields d) then l else l ++ [d]

/-- The outgoing-insertion block of `initialize_db`: if the source label is a
new key, bind it to the one-element list; otherwise append the descriptor
unless an entry with the same relation and destination is already present. -/
def addOutgoing (m : PyDict (List OutRel)) (src : String) (d : OutRel) :
    PyDict (List OutRel) :=
  match m with
  | [] => [(src, [d])]
  | (k, l) :: rest =>
    if k = src then (k, dedupAppendOut l d) :: rest
    else (k, l) :: addOutgoing rest src d

/-- The incoming-insertion block of `initialize_db` (symmetric). -/
def addIncoming (m : PyDict (List InRel)) (dst : String) (d : InRel) :
    PyDict (List InRel) :=
  match m with
  | [] => [(dst, [d])]
  | (k, l) :: rest =>
    if k = dst then (k, dedupAppendIn l d) :: rest
    else (k, l) :: addIncoming rest dst d

/-- `node_types.add(x)` on the Python set, modelled with insertion order. -/
def setAdd (s : List String) (x : String) : List String :=
  if x ∈ s then s else s ++ [x]

/-- The mutable globals of the server process. -/
structure ServerState where
  conn : Option Nat
  graph_name : String
  outgoing_relations : PyDict (List OutRel)
  incoming_relations : PyDict (List InRel)
  node_types : List String
deriving DecidableEq

/-- The state of the globals at process start. -/
def initialState : ServerState :=
  { conn := none, graph_name := "", outgoing_relations := []
    incoming_relations := [], node_types := [] }

/-- The body of the catalog loop of `initialize_db` for one zipped row:
rows with any `None` field are skipped; valid rows insert into both maps and
add both labels to `node_types`. -/
def processRow (s : ServerState) (r : CatalogRow) : ServerState :=
  match r.source_table, r.destination_table, r.label with
  | some src, some dst, some rel =>
    { s with
      outgoing_relations :=
        addOutgoing s.outgoing_relations src { relation := rel, destination := dst }
      incoming_relations :=
        addIncoming s.incoming_relations dst { relation := rel, source := src }
      node_types := setAdd (setAdd s.node_types src) dst }
  | _, _, _ => s

/-- The whole catalog loop of `initialize_db`. -/
def populateRows (rows : List CatalogRow) (s : ServerState) : ServerState :=
  rows.foldl processRow s

/-- The `graph_name` loop of `initialize_db`: the last non-null
`property_graph` value wins, a missing one leaves the previous value. -/
def computeGraphName (rows : List CatalogRow) (g : String) : String :=
  rows.foldl (fun acc r => match r.property_graph with
    | some pg => pg
    | none => acc) g

/-- Outcome environment for one attempt of the `initialize_db` retry loop:
which fallible external calls succeed, and the catalog contents returned by
the metadata queries when they do. -/
structure AttemptEnv where
  connectOk : Bool
  extOk : Bool
  testOk : Bool
  graphOk : Bool
  catalogOk : Bool
  catalog : List CatalogRow
deriving DecidableEq

/-- All external calls of the attempt succeed. -/
def AttemptEnv.allOk (e : AttemptEnv) : Bool :=
  e.connectOk && e.extOk && e.testOk && e.graphOk && e.catalogOk

/-- One attempt of the `initialize_db` body, mutating the globals exactly in
source order: `conn` is assigned as soon as `duckdb.connect` returns, the
extension loading / embedding registration / test query touch no global, the
`graph_name` loop runs right after the `property_graph` query, the two
relation dicts are cleared only after all three catalog column queries
succeeded, and the loop then repopulates them (`node_types` is never
cleared).  Returns the updated globals and whether the attempt succeeded. -/
def attempt (env : AttemptEnv) (fresh : Nat) (s : ServerState) :
    ServerState × Bool :=
  if !env.connectOk then (s, false) else
  let s1 := { s with conn := some fresh }
  if !env.extOk then (s1, false) else
  if !env.testOk then (s1, false) else
  if !env.graphOk then (s1, false) else
  let s2 := { s1 with graph_name := computeGraphName env.catalog s1.graph_name }
  if !env.catalogOk then (s2, false) else
  (populateRows env.catalog
    { s2 with outgoing_relations := [], incoming_relations := [] }, true)

/-- The `for attempt in range(max_attempts)` retry loop: each list element is
one attempt's environment; after the last failed attempt the exception
propagates (`none`), and the globals mutated by the failed attempts persist. -/
def initLoop : List AttemptEnv → Nat → ServerState → ServerState × Option Nat
  | [], _, s => (s, none)
  | env :: rest, fresh, s =>
    match attempt env fresh s with
    | (s', true) => (s', s'.conn)
    | (s', false) => initLoop rest (fresh + 1) s'

/-- `initialize_db`: memoized on `conn` — when a connection already exists it
is returned at once and nothing is rebuilt; otherwise the retry loop runs.
The second component is the returned connection (`none` models the raised
exception after the final failed attempt). -/
def initialize_db (envs : List AttemptEnv) (s : ServerState) :
    ServerState × Option Nat :=
  match s.conn with
  | some c => (s, some c)
  | none => initLoop envs 0 s

/-! ### Request handlers -/

/-- A row returned by `fetchall()`, its values rendered as strings. -/
abbrev Row := List String

/-- Python truthiness of an optional string (`not x` is true for `None` and
for the empty string). -/
def pyTruthy : Option String → Bool
  | none => false
  | some s => s != ""

/-- Python dict assignment `d[k] = v`: update in place or append. -/
def pyDictSet (m : PyDict String) (k : String) (v : String) : PyDict String :=
  match m with
  | [] => [(k, v)]
  | (k', v') :: rest =>
    if k' = k then (k', v) :: rest else (k', v') :: pyDictSet rest k v

/-- The column name chosen for position `i` in `execute_query`:
`column_names[i] if i < len(column_names) else f"col{i}"`. -/
def colName (column_names : List String) (i : Nat) : String :=
  (column_names.get? i).getD ("col" ++ toString i)

/-- The row-conversion loop of `execute_query`: enumerate the row's values
and assign each into the dict under its positional column name. -/
def rowToDict (column_names : List String) (row : List String) :
    PyDict String :=
  row.enum.foldl (fun d p => pyDictSet d (colName column_names p.1) p.2) []

/-- The JSON response of `/api/query`. -/
inductive QueryResponse where
  | results (rows : List (PyDict String))
  | error (msg : String) (status : Nat)
deriving DecidableEq

/-- The `/api/query` handler `execute_query`.  `query` is `data.get('query')`;
`initOutcome` abstracts whether `initialize_db` raises; `execRes` abstracts
`db_conn.execute(query).fetchall()` together with `db_conn.description`
(already projected to the column names `col[0]`, `none` when the description
is `None`). -/
def execute_query (query : Option String) (initOutcome : Except String Unit)
    (execRes : Except String (List Row × Option (List String))) :
    QueryResponse :=
  if !pyTruthy query then .error "Query is required" 400
  else
    match initOutcome with
    | .error e => .error ("Server error: " ++ e) 500
    | .ok _ =>
      match execRes with
      | .error e => .error ("Error executing query: " ++ e) 500
      | .ok (results, desc) =>
        let column_names := desc.getD []
        .results (results.map (rowToDict column_names))

/-- The JSON response of `/api/default-query`. -/
inductive DefaultQueryResponse where
  | query (q : String)
  | error (msg : String) (status : Nat)
deriving DecidableEq

/-- The default query rendered by `get_default_query`. -/
def renderDefaultQuery (g source_label rel_type dest_label : String) : String :=
  "FROM GRAPH_TABLE (" ++ g ++ " MATCH (a:" ++ source_label ++ ")-[n:" ++
    rel_type ++ "]->(b:" ++ dest_label ++ ") COLUMNS (a, n, b)) LIMIT 5"

/-- The `/api/default-query` handler `get_default_query`, reading the globals
`graph_name`, `outgoing_relations`, `incoming_relations` after initialization.
When the first key's descriptor list is empty, the `[0]` subscript raises an
IndexError that the outer handler converts into a server error. -/
def get_default_query (initOutcome : Except String Unit) (graph_name : String)
    (out : PyDict (List OutRel)) (inc : PyDict (List InRel)) :
    DefaultQueryResponse :=
  match initOutcome with
  | .error e => .error ("Server error: " ++ e) 500
  | .ok _ =>
    if graph_name = "" ∨ (out = [] ∧ inc = []) then
      .error "No graph structure available" 500
    else
      match out with
      | (source_label, rels) :: _ =>
        match rels with
        | [] => .error "Server error: list index out of range" 500
        | rel :: _ =>
          .query (renderDefaultQuery graph_name source_label rel.relation
            rel.destination)
      | [] =>
        match inc with
        | (dest_label, rels) :: _ =>
          match rels with
          | [] => .error "Server error: list index out of range" 500
          | rel :: _ =>
            .query (renderDefaultQuery graph_name rel.source rel.relation
              dest_label)
        | [] => .error "Could not generate default query" 500

/-- One element of `result_dicts` in `get_neighbors`: a per-descriptor result
group, whose constructor records whether it carries the
`"direction": "outgoing"` or the `"direction": "incoming"` tag. -/
inductive NeighborGroup where
  | outG (relation : String) (destination : String) (results : List Row)
  | inG (relation : String) (source : String) (results : List Row)
deriving DecidableEq

/-- The `"direction"` field of a result group. -/
def NeighborGroup.direction : NeighborGroup → String
  | .outG _ _ _ => "outgoing"
  | .inG _ _ _ => "incoming"

/-- The skip test of both descriptor loops:
`if relationship_type and r_d['relation'] != relationship_type: continue`. -/
def skipRel (relationship_type : Option String) (rel : String) : Bool :=
  match relationship_type with
  | none => false
  | some s => s != "" && rel != s

/-- Thirty-two spaces, the indentation inside the triple-quoted queries. -/
def sp32 : String := "                                "

/-- Thirty-six spaces. -/
def sp36 : String := "                                    "

/-- Twenty-eight spaces, before the closing quotes. -/
def sp28 : String := "                            "

/-- The outgoing neighbor query, byte for byte as rendered by the f-string in
`get_neighbors`. -/
def renderOutQuery (g node_label node_id rel dest : String) : String :=
  "FROM GRAPH_TABLE (" ++ g ++ "\n" ++ sp32 ++ "MATCH\n" ++ sp36 ++
    "(a:" ++ node_label ++ " WHERE a.id = '" ++ node_id ++ "')-[n:" ++ rel ++
    "]->(b:" ++ dest ++ ")\n" ++ sp32 ++ "COLUMNS (b)\n" ++ sp32 ++ ")\n" ++
    sp28

/-- The incoming neighbor query, byte for byte as rendered by the f-string in
`get_neighbors`. -/
def renderInQuery (g node_label node_id rel src : String) : String :=
  "FROM GRAPH_TABLE (" ++ g ++ "\n" ++ sp32 ++ "MATCH\n" ++ sp36 ++
    "(a:" ++ src ++ ")-[n:" ++ rel ++ "]->(b:" ++ node_label ++
    " WHERE b.id = '" ++ node_id ++ "')\n" ++ sp32 ++ "COLUMNS (a)\n" ++
    sp32 ++ ")\n" ++ sp28

/-- The outgoing descriptor loop of `get_neighbors`: `acc` is the
`result_dicts` accumulated so far, `tr` the trace of queries handed to the
engine.  The first failing execution aborts the whole loop with its error. -/
def runOutRels (g node_label node_id : String) (rt : Option String)
    (exec : String → Except String (List Row)) :
    List OutRel → List NeighborGroup → List String →
    Except String (List NeighborGroup) × List String
  | [], acc, tr => (.ok acc, tr)
  | d :: rest, acc, tr =>
    if skipRel rt d.relation then
      runOutRels g node_label node_id rt exec rest acc tr
    else
      let q := renderOutQuery g node_label node_id d.relation d.destination
      match exec q with
      | .error e => (.error e, tr ++ [q])
      | .ok rs =>
        runOutRels g node_label node_id rt exec rest
          (acc ++ [NeighborGroup.outG d.relation d.destination rs]) (tr ++ [q])

/-- The incoming descriptor loop of `get_neighbors` (symmetric). -/
def runInRels (g node_label node_id : String) (rt : Option String)
    (exec : String → Except String (List Row)) :
    List InRel → List NeighborGroup → List String →
    Except String (List NeighborGroup) × List String
  | [], acc, tr => (.ok acc, tr)
  | d :: rest, acc, tr =>
    if skipRel rt d.relation then
      runInRels g node_label node_id rt exec rest acc tr
    else
      let q := renderInQuery g node_label node_id d.relation d.source
      match exec q with
      | .error e => (.error e, tr ++ [q])
      | .ok rs =>
        runInRels g node_label node_id rt exec rest
          (acc ++ [NeighborGroup.inG d.relation d.source rs]) (tr ++ [q])

/-- The outgoing phase of `get_neighbors`, guarded by
`direction in ['both', 'outgoing'] and node_label in outgoing_relations`. -/
def outPhase (g node_label node_id : String) (direction : String)
    (rt : Option String) (out : PyDict (List OutRel))
    (exec : String → Except String (List Row)) :
    Except String (List NeighborGroup) × List String :=
  if (direction == "both" || direction == "outgoing") && dictHas out node_label
  then runOutRels g node_label node_id rt exec (lookAt out node_label) [] []
  else (.ok [], [])

/-- The incoming phase of `get_neighbors`, continuing on the accumulated
`result_dicts`, guarded by
`direction in ['both', 'incoming'] and node_label in incoming_relations`. -/
def inPhase (g node_label node_id : String) (direction : String)
    (rt : Option String) (inc : PyDict (List InRel))
    (exec : String → Except String (List Row))
    (acc : List NeighborGroup) (tr : List String) :
    Except String (List NeighborGroup) × List String :=
  if (direction == "both" || direction == "incoming") && dictHas inc node_label
  then runInRels g node_label node_id rt exec (lookAt inc node_label) acc tr
  else (.ok acc, tr)

/-- The inner try-block of `get_neighbors`: outgoing loop, then incoming loop
on the same `result_dicts`; any raised execution error aborts both. -/
def neighborsCore (g node_label node_id : String) (direction : String)
    (rt : Option String) (out : PyDict (List OutRel))
    (inc : PyDict (List InRel))
    (exec : String → Except String (List Row)) :
    Except String (List NeighborGroup) × List String :=
  match outPhase g node_label node_id direction rt out exec with
  | (.error e, tr) => (.error e, tr)
  | (.ok acc, tr) => inPhase g node_label node_id direction rt inc exec acc tr

/-- The parsed body of a `/api/neighbors` request, each `data.get` result. -/
structure NeighborRequest where
  label : Option String
  id : Option String
  direction : Option String
  relationshipType : Option String
deriving DecidableEq

/-- The JSON response of `/api/neighbors`. -/
inductive NeighborsResponse where
  | results (groups : List NeighborGroup)
  | error (msg : String) (status : Nat)
deriving DecidableEq

/-- The `results` list carried by a success response. -/
def NeighborsResponse.resultList : NeighborsResponse → Option (List NeighborGroup)
  | .results gs => some gs
  | .error _ _ => none

/-- The HTTP status carried by an error response. -/
def NeighborsResponse.statusCode : NeighborsResponse → Option Nat
  | .results _ => none
  | .error _ s => some s

/-- The `/api/neighbors` handler `get_neighbors`.  Besides the response it
returns whether `initialize_db` was reached and the list of graph queries
handed to the engine, so that "no database work" claims are statable.
`req = none` models a request with no JSON body (the attribute error on
`data.get` is caught by the outer handler). -/
def get_neighbors (req : Option NeighborRequest) (g : String)
    (out : PyDict (List OutRel)) (inc : PyDict (List InRel))
    (initOutcome : Except String Unit)
    (exec : String → Except String (List Row)) :
    NeighborsResponse × Bool × List String :=
  match req with
  | none =>
    (.error "Server error: 'NoneType' object has no attribute 'get'" 500,
      false, [])
  | some data =>
    if !pyTruthy data.label || !pyTruthy data.id then
      (.error "node_label and node_id are required" 400, false, [])
    else
      match initOutcome with
      | .error e => (.error ("Server error: " ++ e) 500, true, [])
      | .ok _ =>
        let node_label := data.label.getD ""
        let node_id := data.id.getD ""
        let direction := data.direction.getD "both"
        match neighborsCore g node_label node_id direction
            data.relationshipType out inc exec with
        | (.ok groups, tr) => (.results groups, true, tr)
        | (.error e, tr) => (.error ("Error executing query: " ++ e) 500, true, tr)

/-- The queries `get_neighbors` renders for the outgoing descriptors it does
not skip, in processing order. -/
def selectedOutQueries (g node_label node_id : String) (direction : String)
    (rt : Option String) (out : PyDict (List OutRel)) : List String :=
  if (direction == "both" || direction == "outgoing") && dictHas out node_label
  then ((lookAt out node_label).filter (fun d => !skipRel rt d.relation)).map
    (fun d => renderOutQuery g node_label node_id d.relation d.destination)
  else []

/-- The queries `get_neighbors` renders for the incoming descriptors it does
not skip, in processing order. -/
def selectedInQueries (g node_label node_id : String) (direction : String)
    (rt : Option String) (inc : PyDict (List InRel)) : List String :=
  if (direction == "both" || direction == "incoming") && dictHas inc node_label
  then ((lookAt inc node_label).filter (fun d => !skipRel rt d.relation)).map
    (fun d => renderInQuery g node_label node_id d.relation d.source)
  else []

/-- All queries a `get_neighbors` request would execute, outgoing first. -/
def selectedQueries (g node_label node_id : String) (direction : String)
    (rt : Option String) (out : PyDict (List OutRel))
    (inc : PyDict (List InRel)) : List String :=
  selectedOutQueries g node_label node_id direction rt out ++
    selectedInQueries g node_label node_id direction rt inc

/-- Whether an `Except` models a non-raising call. -/
def isOkE {ε α : Type} : Except ε α → Bool
  | .ok _ => true
  | .error _ => false

/-- The outgoing map produced by the catalog loop, as a function of the rows
and the starting map alone (the loop touches nothing else of the state). -/
def buildOut (rows : List CatalogRow) (m : PyDict (List OutRel)) :
    PyDict (List OutRel) :=
  rows.foldl (fun m r =>
    match r.source_table, r.destination_table, r.label with
    | some src, some dst, some rel => addOutgoing m src ⟨rel, dst⟩
    | _, _, _ => m) m

/-- The incoming map produced by the catalog loop, as a function of the rows
and the starting map alone. -/
def buildIn (rows : List CatalogRow) (m : PyDict (List InRel)) :
    PyDict (List InRel) :=
  rows.foldl (fun m r =>
    match r.source_table, r.destination_table, r.label with
    | some src, some dst, some rel => addIncoming m dst ⟨rel, src⟩
    | _, _, _ => m) m

/-- A fully non-null catalog row used in the concrete scenarios. -/
def rowPatientDrug : CatalogRow :=
  ⟨some "g", some "Patient", some "Drug", some "TAKES"⟩

/-- An initialization attempt whose connection, extension loading, test query
and graph-name query succeed but whose catalog column queries fail. -/
def envCatalogFails : AttemptEnv :=
  ⟨true, true, true, true, false, [rowPatientDrug]⟩

/-- An initialization attempt in which every external call succeeds. -/
def envAllOk : AttemptEnv :=
  ⟨true, true, true, true, true, [rowPatientDrug]⟩

/-- A fully successful attempt against a different catalog (the catalog has
changed between initialization calls). -/
def envAllOkB : AttemptEnv :=
  ⟨true, true, true, true, true,
    [⟨some "g", some "Doctor", some "Drug", some "PRESCRIBES"⟩]⟩

/-! ### Helper lemmas about the schema index -/

theorem outRel_sameFields_iff {e d : OutRel} : e.sameFields d = true ↔ e = d := by
  cases e; cases d
  simp [OutRel.sameFields, and_comm]

theorem inRel_sameFields_iff {e d : InRel} : e.sameFields d = true ↔ e = d := by
  cases e; cases d
  simp [InRel.sameFields, and_comm]

theorem mem_dedupAppendOut_self (l : List OutRel) (d : OutRel) :
    d ∈ dedupAppendOut l d := by
  unfold dedupAppendOut
  split
  · next h =>
    obtain ⟨e, he, hef⟩ := List.any_eq_true.mp h
    exact (outRel_sameFields_iff.mp hef) ▸ he
  · exact List.mem_append_right _ (List.mem_singleton.mpr rfl)

theorem mem_dedupAppendIn_self (l : List InRel) (d : InRel) :
    d ∈ dedupAppendIn l d := by
  unfold dedupAppendIn
  split
  · next h =>
    obtain ⟨e, he, hef⟩ := List.any_eq_true.mp h
    exact (inRel_sameFields_iff.mp hef) ▸ he
  · exact List.mem_append_right _ (List.mem_singleton.mpr rfl)

theorem mem_dedupAppendOut_of_mem {l : List OutRel} {e : OutRel} (d : OutRel)
    (h : e ∈ l) : e ∈ dedupAppendOut l d := by
  unfold dedupAppendOut
  split
  · exact h
  · exact List.mem_append_left _ h

theorem mem_dedupAppendIn_of_mem {l : List InRel} {e : InRel} (d : InRel)
    (h : e ∈ l) : e ∈ dedupAppendIn l d := by
  unfold dedupAppendIn
  split
  · exact h
  · exact List.mem_append_left _ h

theorem nodup_dedupAppendOut {l : List OutRel} (d : OutRel)
    (h : l.Nodup) : (dedupAppendOut l d).Nodup := by
  unfold dedupAppendOut
  split
  · exact h
  · next hany =>
    refine List.Nodup.append h (List.nodup_singleton d) ?_
    intro x hx hx'
    rw [List.mem_singleton] at hx'
    subst hx'
    exact hany (List.any_eq_true.mpr ⟨x, hx, outRel_sameFields_iff.mpr rfl⟩)

theorem nodup_dedupAppendIn {l : List InRel} (d : InRel)
    (h : l.Nodup) : (dedupAppendIn l d).Nodup := by
  unfold dedupAppendIn
  split
  · exact h
  · next hany =>
    refine List.Nodup.append h (List.nodup_singleton d) ?_
    intro x hx hx'
    rw [List.mem_singleton] at hx'
    subst hx'
    exact hany (List.any_eq_true.mpr ⟨x, hx, inRel_sameFields_iff.mpr rfl⟩)

theorem dictFind_addOutgoing_self (m : PyDict (List OutRel)) (k : String)
    (d : OutRel) :
    dictFind (addOutgoing m k d) k = some (dedupAppendOut (lookAt m k) d) := by
  induction m with
  | nil => simp [addOutgoing, dictFind, lookAt, dedupAppendOut]
  | cons hd rest ih =>
    obtain ⟨k0, l⟩ := hd
    by_cases hk : k0 = k
    · subst hk
      simp [addOutgoing, dictFind, lookAt]
    · simp [addOutgoing, dictFind, lookAt, hk] at ih ⊢
      exact ih

theorem dictFind_addIncoming_self (m : PyDict (List InRel)) (k : String)
    (d : InRel) :
    dictFind (addIncoming m k d) k = some (dedupAppendIn (lookAt m k) d) := by
  induction m with
  | nil => simp [addIncoming, dictFind, lookAt, dedupAppendIn]
  | cons hd rest ih =>
    obtain ⟨k0, l⟩ := hd
    by_cases hk : k0 = k
    · subst hk
      simp [addIncoming, dictFind, lookAt]
    · simp [addIncoming, dictFind, lookAt, hk] at ih ⊢
      exact ih

theorem dictFind_addOutgoing_other (m : PyDict (List OutRel)) {k k' : String}
    (d : OutRel) (h : k ≠ k') :
    dictFind (addOutgoing m k d) k' = dictFind m k' := by
  induction m with
  | nil => simp [addOutgoing, dictFind, h]
  | cons hd rest ih =>
    obtain ⟨k0, l⟩ := hd
    by_cases hk : k0 = k
    · subst hk
      simp [addOutgoing, dictFind, h]
    · simp [addOutgoing, dictFind, hk]
      split <;> simp_all

theorem dictFind_addIncoming_other (m : PyDict (List InRel)) {k k' : String}
    (d : InRel) (h : k ≠ k') :
    dictFind (addIncoming m k d) k' = dictFind m k' := by
  induction m with
  | nil => simp [addIncoming, dictFind, h]
  | cons hd rest ih =>
    obtain ⟨k0, l⟩ := hd
    by_cases hk : k0 = k
    · subst hk
      simp [addIncoming, dictFind, h]
    · simp [addIncoming, dictFind, hk]
      split <;> simp_all

theorem lookAt_addOutgoing_self (m : PyDict (List OutRel)) (k : String)
    (d : OutRel) :
    lookAt (addOutgoing m k d) k = dedupAppendOut (lookAt m k) d := by
  simp [lookAt, dictFind_addOutgoing_self]

theorem lookAt_addIncoming_self (m : PyDict (List InRel)) (k : String)
    (d : InRel) :
    lookAt (addIncoming m k d) k = dedupAppendIn (lookAt m k) d := by
  simp [lookAt, dictFind_addIncoming_self]

theorem mem_lookAt_addOutgoing {m : PyDict (List OutRel)} {k' : String}
    {e : OutRel} (k : String) (d : OutRel) (h : e ∈ lookAt m k') :
    e ∈ lookAt (addOutgoing m k d) k' := by
  by_cases hk : k = k'
  · subst hk
    rw [lookAt_addOutgoing_self]
    exact mem_dedupAppendOut_of_mem d h
  · rwa [lookAt, dictFind_addOutgoing_other m d hk]

theorem mem_lookAt_addIncoming {m : PyDict (List InRel)} {k' : String}
    {e : InRel} (k : String) (d : InRel) (h : e ∈ lookAt m k') :
    e ∈ lookAt (addIncoming m k d) k' := by
  by_cases hk : k = k'
  · subst hk
    rw [lookAt_addIncoming_self]
    exact mem_dedupAppendIn_of_mem d h
  · rwa [lookAt, dictFind_addIncoming_other m d hk]

theorem mem_setAdd_self (s : List String) (x : String) : x ∈ setAdd s x := by
  unfold setAdd
  split
  · assumption
  · exact List.mem_append_right _ (List.mem_singleton.mpr rfl)

theorem mem_setAdd_of_mem {s : List String} {x : String} (y : String)
    (h : x ∈ s) : x ∈ setAdd s y := by
  unfold setAdd
  split
  · exact h
  · exact List.mem_append_left _ h

/-- Outgoing-map membership is preserved by processing one catalog row. -/
theorem mem_out_processRow {s : ServerState} {k : String} {e : OutRel}
    (r : CatalogRow) (h : e ∈ lookAt s.outgoing_relations k) :
    e ∈ lookAt (processRow s r).outgoing_relations k := by
  unfold processRow
  rcases hs : r.source_table with _ | src <;>
    rcases hd : r.destination_table with _ | dst <;>
    rcases hl : r.label with _ | rel <;> simp_all
  exact mem_lookAt_addOutgoing src _ h

/-- Incoming-map membership is preserved by processing one catalog row. -/
theorem mem_in_processRow {s : ServerState} {k : String} {e : InRel}
    (r : CatalogRow) (h : e ∈ lookAt s.incoming_relations k) :
    e ∈ lookAt (processRow s r).incoming_relations k := by
  unfold processRow
  rcases hs : r.source_table with _ | src <;>
    rcases hd : r.destination_table with _ | dst <;>
    rcases hl : r.label with _ | rel <;> simp_all
  exact mem_lookAt_addIncoming dst _ h

/-- `node_types` membership is preserved by processing one catalog row. -/
theorem mem_node_processRow {s : ServerState} {x : String}
    (r : CatalogRow) (h : x ∈ s.node_types) :
    x ∈ (processRow s r).node_types := by
  unfold processRow
  rcases hs : r.source_table with _ | src <;>
    rcases hd : r.destination_table with _ | dst <;>
    rcases hl : r.label with _ | rel <;> simp_all
  exact mem_setAdd_of_mem dst (mem_setAdd_of_mem src h)

/-- Outgoing-map membership is preserved by the whole catalog loop. -/
theorem mem_out_populateRows {k : String} {e : OutRel} :
    ∀ (rows : List CatalogRow) (s : ServerState),
    e ∈ lookAt s.outgoing_relations k →
    e ∈ lookAt (populateRows rows s).outgoing_relations k := by
  intro rows
  induction rows with
  | nil => intro s h; exact h
  | cons r rest ih =>
    intro s h
    exact ih (processRow s r) (mem_out_processRow r h)

/-- Incoming-map membership is preserved by the whole catalog loop. -/
theorem mem_in_populateRows {k : String} {e : InRel} :
    ∀ (rows : List CatalogRow) (s : ServerState),
    e ∈ lookAt s.incoming_relations k →
    e ∈ lookAt (populateRows rows s).incoming_relations k := by
  intro rows
  induction rows with
  | nil => intro s h; exact h
  | cons r rest ih =>
    intro s h
    exact ih (processRow s r) (mem_in_processRow r h)

/-- `node_types` membership is preserved by the whole catalog loop. -/
theorem mem_node_populateRows {x : String} :
    ∀ (rows : List CatalogRow) (s : ServerState),
    x ∈ s.node_types → x ∈ (populateRows rows s).node_types := by
  intro rows
  induction rows with
  | nil => intro s h; exact h
  | cons r rest ih =>
    intro s h
    exact ih (processRow s r) (mem_node_processRow r h)

/-- Processing a fully non-null catalog row establishes all four
memberships the spec promises for it. -/
theorem processRow_establishes {r : CatalogRow} {src dst rel : String}
    (s : ServerState) (hs : r.source_table = some src)
    (hd : r.destination_table = some dst) (hl : r.label = some rel) :
    (⟨rel, dst⟩ : OutRel) ∈ lookAt (processRow s r).outgoing_relations src ∧
    (⟨rel, src⟩ : InRel) ∈ lookAt (processRow s r).incoming_relations dst ∧
    src ∈ (processRow s r).node_types ∧ dst ∈ (processRow s r).node_types := by
  unfold processRow
  rw [hs, hd, hl]
  refine ⟨?_, ?_, ?_, ?_⟩
  · rw [lookAt_addOutgoing_self]
    exact mem_dedupAppendOut_self _ _
  · rw [lookAt_addIncoming_self]
    exact mem_dedupAppendIn_self _ _
  · exact mem_setAdd_of_mem dst (mem_setAdd_self _ src)
  · exact mem_setAdd_self _ dst

/-- A null-field row leaves the state untouched. -/
theorem processRow_skips {r : CatalogRow}
    (s : ServerState)
    (h : r.source_table = none ∨ r.destination_table = none ∨ r.label = none) :
    processRow s r = s := by
  unfold processRow
  rcases hs : r.source_table with _ | src <;>
    rcases hd : r.destination_table with _ | dst <;>
    rcases hl : r.label with _ | rel <;> simp_all

/-- Per-key `Nodup` of the outgoing map is preserved by `addOutgoing`. -/
theorem nodup_lookAt_addOutgoing {m : PyDict (List OutRel)} (k' : String)
    (d : OutRel) (h : ∀ k, (lookAt m k).Nodup) :
    ∀ k, (lookAt (addOutgoing m k' d) k).Nodup := by
  intro k
  by_cases hk : k' = k
  · subst hk
    rw [lookAt_addOutgoing_self]
    exact nodup_dedupAppendOut d (h k')
  · rw [lookAt, dictFind_addOutgoing_other m d hk]
    exact h k

/-- Per-key `Nodup` of the incoming map is preserved by `addIncoming`. -/
theorem nodup_lookAt_addIncoming {m : PyDict (List InRel)} (k' : String)
    (d : InRel) (h : ∀ k, (lookAt m k).Nodup) :
    ∀ k, (lookAt (addIncoming m k' d) k).Nodup := by
  intro k
  by_cases hk : k' = k
  · subst hk
    rw [lookAt_addIncoming_self]
    exact nodup_dedupAppendIn d (h k')
  · rw [lookAt, dictFind_addIncoming_other m d hk]
    exact h k

/-- Per-key `Nodup` of the outgoing map is preserved by one row. -/
theorem nodup_out_processRow {s : ServerState} (r : CatalogRow)
    (ho : ∀ k, (lookAt s.outgoing_relations k).Nodup) :
    ∀ k, (lookAt (processRow s r).outgoing_relations k).Nodup := by
  obtain ⟨pg, st, dt, lb⟩ := r
  rcases st with _ | src <;> rcases dt with _ | dst <;> rcases lb with _ | rel <;>
    first
      | exact ho
      | exact nodup_lookAt_addOutgoing _ _ ho

/-- Per-key `Nodup` of the incoming map is preserved by one row. -/
theorem nodup_in_processRow {s : ServerState} (r : CatalogRow)
    (hi : ∀ k, (lookAt s.incoming_relations k).Nodup) :
    ∀ k, (lookAt (processRow s r).incoming_relations k).Nodup := by
  obtain ⟨pg, st, dt, lb⟩ := r
  rcases st with _ | src <;> rcases dt with _ | dst <;> rcases lb with _ | rel <;>
    first
      | exact hi
      | exact nodup_lookAt_addIncoming _ _ hi

/-- Per-key `Nodup` of both maps is preserved by the whole catalog loop. -/
theorem nodup_populateRows :
    ∀ (rows : List CatalogRow) (s : ServerState),
    (∀ k, (lookAt s.outgoing_relations k).Nodup) →
    (∀ k, (lookAt s.incoming_relations k).Nodup) →
    (∀ k, (lookAt (populateRows rows s).outgoing_relations k).Nodup) ∧
    (∀ k, (lookAt (populateRows rows s).incoming_relations k).Nodup) := by
  intro rows
  induction rows with
  | nil => intro s ho hi; exact ⟨ho, hi⟩
  | cons r rest ih =>
    intro s ho hi
    exact ih (processRow s r) (nodup_out_processRow r ho)
      (nodup_in_processRow r hi)

/-- Every fully non-null catalog row appearing anywhere in the processed row
list ends up represented in both maps and in the node set. -/
theorem mem_populateRows_of_valid {rows : List CatalogRow} {r : CatalogRow}
    {src dst rel : String} (s : ServerState) (hmem : r ∈ rows)
    (hs : r.source_table = some src) (hd : r.destination_table = some dst)
    (hl : r.label = some rel) :
    (⟨rel, dst⟩ : OutRel) ∈
      lookAt (populateRows rows s).outgoing_relations src ∧
    (⟨rel, src⟩ : InRel) ∈
      lookAt (populateRows rows s).incoming_relations dst ∧
    src ∈ (populateRows rows s).node_types ∧
    dst ∈ (populateRows rows s).node_types := by
  obtain ⟨l1, l2, rfl⟩ := List.append_of_mem hmem
  have hsplit : populateRows (l1 ++ r :: l2) s =
      populateRows l2 (processRow (populateRows l1 s) r) := by
    simp [populateRows, List.foldl_append]
  rw [hsplit]
  obtain ⟨h1, h2, h3, h4⟩ := processRow_establishes (populateRows l1 s) hs hd hl
  exact ⟨mem_out_populateRows l2 _ h1, mem_in_populateRows l2 _ h2,
    mem_node_populateRows l2 _ h3, mem_node_populateRows l2 _ h4⟩

/-! ### Claim theorems -/

/-- C1: for every catalog row whose three fields are all non-null, the
schema-index loop inserts the `{relation, destination}` descriptor under the
source key of the outgoing map and the `{relation, source}` descriptor under
the destination key of the incoming map, and adds both labels to the node
set; a row with any null field leaves the state exactly unchanged, so it
contributes nothing to either map or to the node set. -/
theorem c1_schema_index_insertion :
    (∀ (rows : List CatalogRow) (s : ServerState) (r : CatalogRow)
        (src dst rel : String), r ∈ rows →
        r.source_table = some src → r.destination_table = some dst →
        r.label = some rel →
        (⟨rel, dst⟩ : OutRel) ∈
          lookAt (populateRows rows s).outgoing_relations src ∧
        (⟨rel, src⟩ : InRel) ∈
          lookAt (populateRows rows s).incoming_relations dst ∧
        src ∈ (populateRows rows s).node_types ∧
        dst ∈ (populateRows rows s).node_types) ∧
    (∀ (s : ServerState) (r : CatalogRow),
        (r.source_table = none ∨ r.destination_table = none ∨
          r.label = none) →
        processRow s r = s) := by
  constructor
  · intro rows s r src dst rel hmem hs hd hl
    exact mem_populateRows_of_valid s hmem hs hd hl
  · intro s r h
    exact processRow_skips s h

/-- Witness for C1 at the spec's example row `("Patient","Drug","TAKES")`,
plus a null-field row that is skipped. -/
theorem c1_schema_index_insertion_witness :
    ((⟨"TAKES", "Drug"⟩ : OutRel) ∈
      lookAt (populateRows
        [⟨some "g", some "Patient", some "Drug", some "TAKES"⟩]
        initialState).outgoing_relations "Patient" ∧
    (⟨"TAKES", "Patient"⟩ : InRel) ∈
      lookAt (populateRows
        [⟨some "g", some "Patient", some "Drug", some "TAKES"⟩]
        initialState).incoming_relations "Drug" ∧
    "Patient" ∈ (populateRows
        [⟨some "g", some "Patient", some "Drug", some "TAKES"⟩]
        initialState).node_types ∧
    "Drug" ∈ (populateRows
        [⟨some "g", some "Patient", some "Drug", some "TAKES"⟩]
        initialState).node_types) ∧
    processRow initialState ⟨some "g", none, some "Drug", some "TAKES"⟩ =
      initialState :=
  ⟨c1_schema_index_insertion.1
      [⟨some "g", some "Patient", some "Drug", some "TAKES"⟩] initialState
      ⟨some "g", some "Patient", some "Drug", some "TAKES"⟩
      "Patient" "Drug" "TAKES" (List.mem_singleton.mpr rfl) rfl rfl rfl,
    c1_schema_index_insertion.2 initialState
      ⟨some "g", none, some "Drug", some "TAKES"⟩ (Or.inl rfl)⟩

/-- C8: schema-index insertion deduplicates — for any processed row list,
whenever a valid row yields a (relation, neighbor) pair under some key, the
corresponding map holds exactly one entry for that pair, even if several rows
yield the same pair.  The `Nodup` hypotheses hold for the cleared maps the
loop actually starts from. -/
theorem c8_insertion_idempotent :
    ∀ (rows : List CatalogRow) (s : ServerState) (r : CatalogRow)
      (src dst rel : String),
      (∀ k, (lookAt s.outgoing_relations k).Nodup) →
      (∀ k, (lookAt s.incoming_relations k).Nodup) →
      r ∈ rows → r.source_table = some src →
      r.destination_table = some dst → r.label = some rel →
      (lookAt (populateRows rows s).outgoing_relations src).count
          (⟨rel, dst⟩ : OutRel) = 1 ∧
      (lookAt (populateRows rows s).incoming_relations dst).count
          (⟨rel, src⟩ : InRel) = 1 := by
  intro rows s r src dst rel ho hi hmem hs hd hl
  obtain ⟨hno, hni⟩ := nodup_populateRows rows s ho hi
  obtain ⟨h1, h2, _, _⟩ := mem_populateRows_of_valid s hmem hs hd hl
  exact ⟨List.count_eq_one_of_mem (hno src) h1,
    List.count_eq_one_of_mem (hni dst) h2⟩

/-- Witness for C8: two identical catalog rows produce a single descriptor
entry (count 1) in each map. -/
theorem c8_insertion_idempotent_witness :
    (lookAt (populateRows
      [⟨some "g", some "Patient", some "Drug", some "TAKES"⟩,
       ⟨some "g", some "Patient", some "Drug", some "TAKES"⟩]
      initialState).outgoing_relations "Patient").count
        (⟨"TAKES", "Drug"⟩ : OutRel) = 1 ∧
    (lookAt (populateRows
      [⟨some "g", some "Patient", some "Drug", some "TAKES"⟩,
       ⟨some "g", some "Patient", some "Drug", some "TAKES"⟩]
      initialState).incoming_relations "Drug").count
        (⟨"TAKES", "Patient"⟩ : InRel) = 1 :=
  c8_insertion_idempotent
    [⟨some "g", some "Patient", some "Drug", some "TAKES"⟩,
     ⟨some "g", some "Patient", some "Drug", some "TAKES"⟩]
    initialState ⟨some "g", some "Patient", some "Drug", some "TAKES"⟩
    "Patient" "Drug" "TAKES"
    (by intro k; simp [initialState, lookAt, dictFind])
    (by intro k; simp [initialState, lookAt, dictFind])
    (List.mem_cons_self _ _) rfl rfl rfl

/-- C2 counterexample: with an empty graph name and a non-empty outgoing map,
`get_default_query` returns the error `'No graph structure available'` even
though the outgoing map is non-empty, contradicting the claim that this error
occurs only when both maps are empty (the claim would demand a rendered
query here). -/
theorem c2_default_query_counterexample :
    get_default_query (.ok ()) "" [("A", [⟨"R", "B"⟩])] [] =
      .error "No graph structure available" 500 ∧
    ([("A", [(⟨"R", "B"⟩ : OutRel)])] : PyDict (List OutRel)) ≠ [] := by
  exact ⟨by decide, by decide⟩

/-- C2 amended: `get_default_query` fails with
`'No graph structure available'` whenever the graph name is empty or both
maps are empty; otherwise, when the outgoing map is non-empty it renders the
query from the first-inserted label and that label's first-inserted
descriptor, and when the outgoing map is empty it does so symmetrically from
the incoming map. -/
theorem c2_default_query_policy :
    (∀ (g : String) (out : PyDict (List OutRel)) (inc : PyDict (List InRel)),
        (g = "" ∨ (out = [] ∧ inc = [])) →
        get_default_query (.ok ()) g out inc =
          .error "No graph structure available" 500) ∧
    (∀ (g sl : String) (d : OutRel) (ds : List OutRel)
        (rest : PyDict (List OutRel)) (inc : PyDict (List InRel)), g ≠ "" →
        get_default_query (.ok ()) g ((sl, d :: ds) :: rest) inc =
          .query (renderDefaultQuery g sl d.relation d.destination)) ∧
    (∀ (g dl : String) (d : InRel) (ds : List InRel)
        (rest : PyDict (List InRel)), g ≠ "" →
        get_default_query (.ok ()) g [] ((dl, d :: ds) :: rest) =
          .query (renderDefaultQuery g d.source d.relation dl)) := by
  refine ⟨?_, ?_, ?_⟩
  · intro g out inc h
    simp only [get_default_query]
    rw [if_pos h]
  · intro g sl d ds rest inc hg
    simp only [get_default_query]
    rw [if_neg]
    rintro (h | ⟨h, -⟩)
    · exact hg h
    · exact List.cons_ne_nil _ _ h
  · intro g dl d ds rest hg
    simp only [get_default_query]
    rw [if_neg]
    rintro (h | ⟨-, h⟩)
    · exact hg h
    · exact List.cons_ne_nil _ _ h

/-- Witness for the amended C2: a rendered default query from the first
outgoing descriptor, and the error on a fully empty index. -/
theorem c2_default_query_policy_witness :
    get_default_query (.ok ()) "g" [("A", [⟨"R", "B"⟩])] [] =
      .query (renderDefaultQuery "g" "A" "R" "B") ∧
    get_default_query (.ok ()) "" [] [] =
      .error "No graph structure available" 500 :=
  ⟨c2_default_query_policy.2.1 "g" "A" ⟨"R", "B"⟩ [] [] [] (by decide),
    c2_default_query_policy.1 "" [] [] (Or.inl rfl)⟩

/-- C4 (code bug trace): three attempts connect successfully but their
catalog queries fail, so `initialize_db` raises — yet the global `conn` was
already assigned by the failed attempts (and `graph_name` set by the first
one).  The next `initialize_db` call therefore returns that connection
immediately, and the request handler observes a non-null connection whose
adjacency maps were never populated, although the catalog holds a valid row
(last conjunct: a real rebuild would be non-empty). -/
theorem c4_partial_state_observable :
    (initialize_db [envCatalogFails, envCatalogFails, envCatalogFails]
        initialState).2 = none ∧
    (initialize_db [envCatalogFails, envCatalogFails, envCatalogFails]
        initialState).1.conn = some 2 ∧
    (initialize_db [envCatalogFails, envCatalogFails, envCatalogFails]
        initialState).1.graph_name = "g" ∧
    (initialize_db [envCatalogFails, envCatalogFails, envCatalogFails]
        initialState).1.outgoing_relations = [] ∧
    initialize_db [envAllOk]
        (initialize_db [envCatalogFails, envCatalogFails, envCatalogFails]
          initialState).1 =
      ((initialize_db [envCatalogFails, envCatalogFails, envCatalogFails]
          initialState).1, some 2) ∧
    (populateRows [rowPatientDrug] initialState).outgoing_relations ≠ [] := by
  decide

/-- C5 counterexample: after a successful initialization, a further
`initialize_db` call leaves the maps exactly as they were (first conjunct),
even though the catalog current at that call would rebuild them differently
(third and fourth conjuncts) — so the index is not cleared and repopulated
from the current catalog on every call. -/
theorem c5_rebuild_counterexample :
    (initialize_db [envAllOkB]
        (initialize_db [envAllOk] initialState).1).1 =
      (initialize_db [envAllOk] initialState).1 ∧
    (initialize_db [envAllOk] initialState).1.outgoing_relations =
      [("Patient", [⟨"TAKES", "Drug"⟩])] ∧
    (populateRows envAllOkB.catalog
        { (initialize_db [envAllOk] initialState).1 with
          outgoing_relations := [], incoming_relations := [] }).outgoing_relations =
      [("Doctor", [⟨"PRESCRIBES", "Drug"⟩])] ∧
    ([("Patient", [(⟨"TAKES", "Drug"⟩ : OutRel)])] : PyDict (List OutRel)) ≠
      [("Doctor", [⟨"PRESCRIBES", "Drug"⟩])] := by
  decide

/-- The outgoing map after the catalog loop depends only on the rows and the
starting outgoing map. -/
theorem populateRows_outgoing :
    ∀ (rows : List CatalogRow) (s : ServerState),
    (populateRows rows s).outgoing_relations =
      buildOut rows s.outgoing_relations := by
  intro rows
  induction rows with
  | nil => intro s; rfl
  | cons r rest ih =>
    intro s
    have hstep : (processRow s r).outgoing_relations =
        match r.source_table, r.destination_table, r.label with
        | some src, some dst, some rel =>
          addOutgoing s.outgoing_relations src ⟨rel, dst⟩
        | _, _, _ => s.outgoing_relations := by
      obtain ⟨pg, st, dt, lb⟩ := r
      rcases st with _ | src <;> rcases dt with _ | dst <;>
        rcases lb with _ | rel <;> rfl
    show (populateRows rest (processRow s r)).outgoing_relations = _
    rw [ih (processRow s r), hstep]
    obtain ⟨pg, st, dt, lb⟩ := r
    rcases st with _ | src <;> rcases dt with _ | dst <;>
      rcases lb with _ | rel <;> rfl

/-- The incoming map after the catalog loop depends only on the rows and the
starting incoming map. -/
theorem populateRows_incoming :
    ∀ (rows : List CatalogRow) (s : ServerState),
    (populateRows rows s).incoming_relations =
      buildIn rows s.incoming_relations := by
  intro rows
  induction rows with
  | nil => intro s; rfl
  | cons r rest ih =>
    intro s
    have hstep : (processRow s r).incoming_relations =
        match r.source_table, r.destination_table, r.label with
        | some src, some dst, some rel =>
          addIncoming s.incoming_relations dst ⟨rel, src⟩
        | _, _, _ => s.incoming_relations := by
      obtain ⟨pg, st, dt, lb⟩ := r
      rcases st with _ | src <;> rcases dt with _ | dst <;>
        rcases lb with _ | rel <;> rfl
    show (populateRows rest (processRow s r)).incoming_relations = _
    rw [ih (processRow s r), hstep]
    obtain ⟨pg, st, dt, lb⟩ := r
    rcases st with _ | src <;> rcases dt with _ | dst <;>
      rcases lb with _ | rel <;> rfl

/-- A fully successful attempt: fresh connection, graph name from the
catalog, maps cleared and repopulated, `node_types` only added to. -/
theorem attempt_allOk {env : AttemptEnv} (fresh : Nat) (s : ServerState)
    (h : env.allOk = true) :
    attempt env fresh s =
      (populateRows env.catalog
        { conn := some fresh
          graph_name := computeGraphName env.catalog s.graph_name
          outgoing_relations := []
          incoming_relations := []
          node_types := s.node_types }, true) := by
  obtain ⟨⟨⟨⟨h1, h2⟩, h3⟩, h4⟩, h5⟩ :
      (((env.connectOk = true ∧ env.extOk = true) ∧ env.testOk = true) ∧
        env.graphOk = true) ∧ env.catalogOk = true := by
    simpa [AttemptEnv.allOk, Bool.and_eq_true, and_assoc] using h
  simp [attempt, h1, h2, h3, h4, h5]

/-- C5 amended: `initialize_db` rebuilds only when no connection exists.
When `conn` is already set, the call returns it and mutates nothing (so the
index is never incrementally changed between calls); when `conn` is unset and
the attempt succeeds, the two relation maps are cleared and repopulated from
the current catalog alone — they do not depend on their previous contents —
while the node-label set is only added to, never cleared. -/
theorem c5_rebuild_only_when_unconnected :
    (∀ (envs : List AttemptEnv) (s : ServerState) (c : Nat),
        s.conn = some c → initialize_db envs s = (s, some c)) ∧
    (∀ (env : AttemptEnv) (s1 s2 : ServerState), s1.conn = none →
        s2.conn = none → env.allOk = true →
        (initialize_db [env] s1).1.outgoing_relations =
          (initialize_db [env] s2).1.outgoing_relations ∧
        (initialize_db [env] s1).1.incoming_relations =
          (initialize_db [env] s2).1.incoming_relations) ∧
    (∀ (env : AttemptEnv) (s : ServerState) (x : String), s.conn = none →
        env.allOk = true → x ∈ s.node_types →
        x ∈ (initialize_db [env] s).1.node_types) := by
  have hinit : ∀ (env : AttemptEnv) (s : ServerState), s.conn = none →
      env.allOk = true →
      (initialize_db [env] s).1 =
        populateRows env.catalog
          { conn := some 0
            graph_name := computeGraphName env.catalog s.graph_name
            outgoing_relations := []
            incoming_relations := []
            node_types := s.node_types } := by
    intro env s hc hok
    simp only [initialize_db, hc, initLoop, attempt_allOk 0 s hok]
  refine ⟨?_, ?_, ?_⟩
  · intro envs s c hc
    simp [initialize_db, hc]
  · intro env s1 s2 h1 h2 hok
    rw [hinit env s1 h1 hok, hinit env s2 h2 hok]
    constructor
    · rw [populateRows_outgoing, populateRows_outgoing]
    · rw [populateRows_incoming, populateRows_incoming]
  · intro env s x hc hok hx
    rw [hinit env s hc hok]
    exact mem_node_populateRows env.catalog _ hx

/-- Witness for the amended C5: a memoized call returns the state untouched;
on a fresh state, rebuilding from the same catalog but different stale maps
gives the same maps; a pre-existing node label survives the rebuild. -/
theorem c5_rebuild_only_when_unconnected_witness :
    initialize_db [envAllOkB] ⟨some 7, "g",
        [("Patient", [⟨"TAKES", "Drug"⟩])], [], ["Patient"]⟩ =
      (⟨some 7, "g", [("Patient", [⟨"TAKES", "Drug"⟩])], [], ["Patient"]⟩,
        some 7) ∧
    ((initialize_db [envAllOk]
        ⟨none, "", [("Stale", [⟨"OLD", "Junk"⟩])], [], []⟩).1.outgoing_relations =
      (initialize_db [envAllOk] initialState).1.outgoing_relations ∧
    (initialize_db [envAllOk]
        ⟨none, "", [("Stale", [⟨"OLD", "Junk"⟩])], [], []⟩).1.incoming_relations =
      (initialize_db [envAllOk] initialState).1.incoming_relations) ∧
    "Old" ∈ (initialize_db [envAllOk]
        ⟨none, "", [], [], ["Old"]⟩).1.node_types :=
  ⟨c5_rebuild_only_when_unconnected.1 [envAllOkB] _ 7 rfl,
    c5_rebuild_only_when_unconnected.2.1 envAllOk
      ⟨none, "", [("Stale", [⟨"OLD", "Junk"⟩])], [], []⟩ initialState
      rfl rfl (by decide),
    c5_rebuild_only_when_unconnected.2.2 envAllOk
      ⟨none, "", [], [], ["Old"]⟩ "Old" rfl (by decide)
      (List.mem_singleton.mpr rfl)⟩

/-! ### Helper lemmas about the neighbor handler -/

theorem runOutRels_direction (g l i : String) (rt : Option String)
    (exec : String → Except String (List Row)) :
    ∀ (ds : List OutRel) (acc : List NeighborGroup) (tr : List String),
    (∀ x ∈ acc, x.direction = "outgoing") →
    ∀ (gs : List NeighborGroup) (tr' : List String),
    runOutRels g l i rt exec ds acc tr = (.ok gs, tr') →
    ∀ x ∈ gs, x.direction = "outgoing" := by
  intro ds
  induction ds with
  | nil =>
    intro acc tr hacc gs tr' h
    simp only [runOutRels, Prod.mk.injEq, Except.ok.injEq] at h
    exact h.1 ▸ hacc
  | cons d rest ih =>
    intro acc tr hacc gs tr' h
    by_cases hskip : skipRel rt d.relation = true
    · rw [runOutRels, if_pos hskip] at h
      exact ih acc tr hacc gs tr' h
    · rw [runOutRels, if_neg hskip] at h
      cases hq : exec (renderOutQuery g l i d.relation d.destination) with
      | error e =>
        simp only [hq] at h
        simp at h
      | ok rs =>
        simp only [hq] at h
        refine ih _ _ ?_ gs tr' h
        intro x hx
        rcases List.mem_append.mp hx with hx | hx
        · exact hacc x hx
        · rw [List.mem_singleton] at hx
          subst hx
          rfl

theorem runInRels_direction (g l i : String) (rt : Option String)
    (exec : String → Except String (List Row)) :
    ∀ (ds : List InRel) (acc : List NeighborGroup) (tr : List String),
    (∀ x ∈ acc, x.direction = "incoming") →
    ∀ (gs : List NeighborGroup) (tr' : List String),
    runInRels g l i rt exec ds acc tr = (.ok gs, tr') →
    ∀ x ∈ gs, x.direction = "incoming" := by
  intro ds
  induction ds with
  | nil =>
    intro acc tr hacc gs tr' h
    simp only [runInRels, Prod.mk.injEq, Except.ok.injEq] at h
    exact h.1 ▸ hacc
  | cons d rest ih =>
    intro acc tr hacc gs tr' h
    by_cases hskip : skipRel rt d.relation = true
    · rw [runInRels, if_pos hskip] at h
      exact ih acc tr hacc gs tr' h
    · rw [runInRels, if_neg hskip] at h
      cases hq : exec (renderInQuery g l i d.relation d.source) with
      | error e =>
        simp only [hq] at h
        simp at h
      | ok rs =>
        simp only [hq] at h
        refine ih _ _ ?_ gs tr' h
        intro x hx
        rcases List.mem_append.mp hx with hx | hx
        · exact hacc x hx
        · rw [List.mem_singleton] at hx
          subst hx
          rfl

theorem runInRels_acc (g l i : String) (rt : Option String)
    (exec : String → Except String (List Row)) :
    ∀ (ds : List InRel) (acc : List NeighborGroup) (tr : List String),
    runInRels g l i rt exec ds acc tr =
      (Except.map (fun gs => acc ++ gs)
        (runInRels g l i rt exec ds [] []).1,
        tr ++ (runInRels g l i rt exec ds [] []).2) := by
  intro ds
  induction ds with
  | nil =>
    intro acc tr
    simp [runInRels, Except.map]
  | cons d rest ih =>
    intro acc tr
    by_cases hskip : skipRel rt d.relation = true
    · simp only [runInRels, if_pos hskip]
      exact ih acc tr
    · simp only [runInRels, if_neg hskip]
      cases hq : exec (renderInQuery g l i d.relation d.source) with
      | error e => simp [hq, Except.map]
      | ok rs =>
        simp only [hq, List.nil_append]
        rw [ih (acc ++ [NeighborGroup.inG d.relation d.source rs])
            (tr ++ [renderInQuery g l i d.relation d.source]),
          ih [NeighborGroup.inG d.relation d.source rs]
            [renderInQuery g l i d.relation d.source]]
        cases (runInRels g l i rt exec rest [] []).1 <;> simp [Except.map]

theorem runOutRels_isOk (g l i : String) (rt : Option String)
    (exec : String → Except String (List Row)) :
    ∀ (ds : List OutRel) (acc : List NeighborGroup) (tr : List String),
    isOkE (runOutRels g l i rt exec ds acc tr).1 =
      ((ds.filter (fun d => !skipRel rt d.relation)).map
        (fun d => renderOutQuery g l i d.relation d.destination)).all
        (fun q => isOkE (exec q)) := by
  intro ds
  induction ds with
  | nil =>
    intro acc tr
    simp [runOutRels, isOkE]
  | cons d rest ih =>
    intro acc tr
    by_cases hskip : skipRel rt d.relation = true
    · rw [runOutRels, if_pos hskip, ih acc tr]
      simp [List.filter_cons, hskip]
    · have hskip' : skipRel rt d.relation = false := by
        revert hskip
        cases skipRel rt d.relation <;> simp
      rw [runOutRels, if_neg hskip]
      cases hq : exec (renderOutQuery g l i d.relation d.destination) with
      | error e =>
        simp [List.filter_cons, hskip', hq, isOkE]
      | ok rs =>
        simp only [hq]
        rw [ih (acc ++ [NeighborGroup.outG d.relation d.destination rs])
            (tr ++ [renderOutQuery g l i d.relation d.destination])]
        simp [List.filter_cons, hskip', hq, isOkE]

theorem runInRels_isOk (g l i : String) (rt : Option String)
    (exec : String → Except String (List Row)) :
    ∀ (ds : List InRel) (acc : List NeighborGroup) (tr : List String),
    isOkE (runInRels g l i rt exec ds acc tr).1 =
      ((ds.filter (fun d => !skipRel rt d.relation)).map
        (fun d => renderInQuery g l i d.relation d.source)).all
        (fun q => isOkE (exec q)) := by
  intro ds
  induction ds with
  | nil =>
    intro acc tr
    simp [runInRels, isOkE]
  | cons d rest ih =>
    intro acc tr
    by_cases hskip : skipRel rt d.relation = true
    · rw [runInRels, if_pos hskip, ih acc tr]
      simp [List.filter_cons, hskip]
    · have hskip' : skipRel rt d.relation = false := by
        revert hskip
        cases skipRel rt d.relation <;> simp
      rw [runInRels, if_neg hskip]
      cases hq : exec (renderInQuery g l i d.relation d.source) with
      | error e =>
        simp [List.filter_cons, hskip', hq, isOkE]
      | ok rs =>
        simp only [hq]
        rw [ih (acc ++ [NeighborGroup.inG d.relation d.source rs])
            (tr ++ [renderInQuery g l i d.relation d.source])]
        simp [List.filter_cons, hskip', hq, isOkE]

theorem outPhase_both (g l i : String) (rt : Option String)
    (out : PyDict (List OutRel)) (exec : String → Except String (List Row)) :
    outPhase g l i "both" rt out exec =
      outPhase g l i "outgoing" rt out exec := by
  unfold outPhase
  rw [show (("both" : String) == "both" || ("both" : String) == "outgoing") =
      true from by decide,
    show (("outgoing" : String) == "both" ||
      ("outgoing" : String) == "outgoing") = true from by decide]

theorem outPhase_incoming (g l i : String) (rt : Option String)
    (out : PyDict (List OutRel)) (exec : String → Except String (List Row)) :
    outPhase g l i "incoming" rt out exec = (.ok [], []) := by
  unfold outPhase
  rw [show (("incoming" : String) == "both" ||
    ("incoming" : String) == "outgoing") = false from by decide]
  simp

theorem inPhase_both (g l i : String) (rt : Option String)
    (inc : PyDict (List InRel)) (exec : String → Except String (List Row))
    (acc : List NeighborGroup) (tr : List String) :
    inPhase g l i "both" rt inc exec acc tr =
      inPhase g l i "incoming" rt inc exec acc tr := by
  unfold inPhase
  rw [show (("both" : String) == "both" || ("both" : String) == "incoming") =
      true from by decide,
    show (("incoming" : String) == "both" ||
      ("incoming" : String) == "incoming") = true from by decide]

theorem inPhase_outgoing (g l i : String) (rt : Option String)
    (inc : PyDict (List InRel)) (exec : String → Except String (List Row))
    (acc : List NeighborGroup) (tr : List String) :
    inPhase g l i "outgoing" rt inc exec acc tr = (.ok acc, tr) := by
  unfold inPhase
  rw [show (("outgoing" : String) == "both" ||
    ("outgoing" : String) == "incoming") = false from by decide]
  simp

theorem inPhase_acc (g l i d : String) (rt : Option String)
    (inc : PyDict (List InRel)) (exec : String → Except String (List Row))
    (acc : List NeighborGroup) (tr : List String) :
    inPhase g l i d rt inc exec acc tr =
      (Except.map (fun gs => acc ++ gs)
        (inPhase g l i d rt inc exec [] []).1,
        tr ++ (inPhase g l i d rt inc exec [] []).2) := by
  unfold inPhase
  by_cases hg : ((d == "both" || d == "incoming") && dictHas inc l) = true
  · rw [if_pos hg, if_pos hg]
    exact runInRels_acc g l i rt exec (lookAt inc l) acc tr
  · rw [if_neg hg, if_neg hg]
    simp [Except.map]

theorem core_outgoing_eq (g l i : String) (rt : Option String)
    (out : PyDict (List OutRel)) (inc : PyDict (List InRel))
    (exec : String → Except String (List Row)) :
    neighborsCore g l i "outgoing" rt out inc exec =
      outPhase g l i "outgoing" rt out exec := by
  unfold neighborsCore
  rcases hp : outPhase g l i "outgoing" rt out exec with ⟨r, tr⟩
  cases r with
  | error e => rfl
  | ok acc => exact inPhase_outgoing g l i rt inc exec acc tr

theorem core_incoming_eq (g l i : String) (rt : Option String)
    (out : PyDict (List OutRel)) (inc : PyDict (List InRel))
    (exec : String → Except String (List Row)) :
    neighborsCore g l i "incoming" rt out inc exec =
      inPhase g l i "incoming" rt inc exec [] [] := by
  unfold neighborsCore
  rw [outPhase_incoming]

theorem core_both_split (g l i : String) (rt : Option String)
    (out : PyDict (List OutRel)) (inc : PyDict (List InRel))
    (exec : String → Except String (List Row)) :
    neighborsCore g l i "both" rt out inc exec =
      (match (neighborsCore g l i "outgoing" rt out inc exec).1 with
       | .error e =>
         (.error e, (neighborsCore g l i "outgoing" rt out inc exec).2)
       | .ok g1 =>
         (Except.map (fun g2 => g1 ++ g2)
            (neighborsCore g l i "incoming" rt out inc exec).1,
          (neighborsCore g l i "outgoing" rt out inc exec).2 ++
            (neighborsCore g l i "incoming" rt out inc exec).2)) := by
  rw [core_outgoing_eq, core_incoming_eq]
  unfold neighborsCore
  rw [outPhase_both]
  rcases hp : outPhase g l i "outgoing" rt out exec with ⟨r, tr⟩
  cases r with
  | error e => rfl
  | ok acc =>
    show inPhase g l i "both" rt inc exec acc tr =
      (Except.map (fun g2 => acc ++ g2)
        (inPhase g l i "incoming" rt inc exec [] []).1,
        tr ++ (inPhase g l i "incoming" rt inc exec [] []).2)
    rw [inPhase_both, inPhase_acc]

theorem get_neighbors_valid (g lab idv d : String) (rt : Option String)
    (out : PyDict (List OutRel)) (inc : PyDict (List InRel))
    (exec : String → Except String (List Row))
    (hl : lab ≠ "") (hi : idv ≠ "") :
    get_neighbors (some ⟨some lab, some idv, some d, rt⟩) g out inc
        (.ok ()) exec =
      (match neighborsCore g lab idv d rt out inc exec with
       | (.ok groups, tr) => (.results groups, true, tr)
       | (.error e, tr) =>
         (.error ("Error executing query: " ++ e) 500, true, tr)) := by
  have h1 : pyTruthy (some lab) = true := by simp [pyTruthy, hl]
  have h2 : pyTruthy (some idv) = true := by simp [pyTruthy, hi]
  simp [get_neighbors, h1, h2]

theorem handler_of_core_ok {g lab idv d : String} {rt : Option String}
    {out : PyDict (List OutRel)} {inc : PyDict (List InRel)}
    {exec : String → Except String (List Row)}
    {gs : List NeighborGroup} {tr : List String}
    (hl : lab ≠ "") (hi : idv ≠ "")
    (hc : neighborsCore g lab idv d rt out inc exec = (.ok gs, tr)) :
    get_neighbors (some ⟨some lab, some idv, some d, rt⟩) g out inc
        (.ok ()) exec = (.results gs, true, tr) := by
  rw [get_neighbors_valid g lab idv d rt out inc exec hl hi, hc]

theorem handler_of_core_err {g lab idv d : String} {rt : Option String}
    {out : PyDict (List OutRel)} {inc : PyDict (List InRel)}
    {exec : String → Except String (List Row)}
    {e : String} {tr : List String}
    (hl : lab ≠ "") (hi : idv ≠ "")
    (hc : neighborsCore g lab idv d rt out inc exec = (.error e, tr)) :
    get_neighbors (some ⟨some lab, some idv, some d, rt⟩) g out inc
        (.ok ()) exec =
      (.error ("Error executing query: " ++ e) 500, true, tr) := by
  rw [get_neighbors_valid g lab idv d rt out inc exec hl hi, hc]

theorem core_of_handler_results {g lab idv d : String} {rt : Option String}
    {out : PyDict (List OutRel)} {inc : PyDict (List InRel)}
    {exec : String → Except String (List Row)}
    {gs : List NeighborGroup} {b : Bool} {tr : List String}
    (hl : lab ≠ "") (hi : idv ≠ "")
    (h : get_neighbors (some ⟨some lab, some idv, some d, rt⟩) g out inc
        (.ok ()) exec = (.results gs, b, tr)) :
    neighborsCore g lab idv d rt out inc exec = (.ok gs, tr) := by
  rw [get_neighbors_valid g lab idv d rt out inc exec hl hi] at h
  rcases hc : neighborsCore g lab idv d rt out inc exec with ⟨r, tr0⟩
  rw [hc] at h
  cases r with
  | error e => simp at h
  | ok acc =>
    simp only [Prod.mk.injEq, NeighborsResponse.results.injEq] at h
    rw [h.1, h.2.2]

theorem core_outgoing_direction {g l i : String} {rt : Option String}
    {out : PyDict (List OutRel)} {inc : PyDict (List InRel)}
    {exec : String → Except String (List Row)}
    {gs : List NeighborGroup} {tr : List String}
    (h : neighborsCore g l i "outgoing" rt out inc exec = (.ok gs, tr)) :
    ∀ x ∈ gs, x.direction = "outgoing" := by
  rw [core_outgoing_eq] at h
  unfold outPhase at h
  by_cases hg : ((("outgoing" : String) == "both" ||
      ("outgoing" : String) == "outgoing") && dictHas out l) = true
  · rw [if_pos hg] at h
    exact runOutRels_direction g l i rt exec _ [] []
      (by intro x hx; cases hx) gs tr h
  · rw [if_neg hg] at h
    simp only [Prod.mk.injEq, Except.ok.injEq] at h
    intro x hx
    rw [← h.1] at hx
    cases hx

theorem core_incoming_direction {g l i : String} {rt : Option String}
    {out : PyDict (List OutRel)} {inc : PyDict (List InRel)}
    {exec : String → Except String (List Row)}
    {gs : List NeighborGroup} {tr : List String}
    (h : neighborsCore g l i "incoming" rt out inc exec = (.ok gs, tr)) :
    ∀ x ∈ gs, x.direction = "incoming" := by
  rw [core_incoming_eq] at h
  unfold inPhase at h
  by_cases hg : ((("incoming" : String) == "both" ||
      ("incoming" : String) == "incoming") && dictHas inc l) = true
  · rw [if_pos hg] at h
    exact runInRels_direction g l i rt exec _ [] []
      (by intro x hx; cases hx) gs tr h
  · rw [if_neg hg] at h
    simp only [Prod.mk.injEq, Except.ok.injEq] at h
    intro x hx
    rw [← h.1] at hx
    cases hx

theorem core_both_components {g l i : String} {rt : Option String}
    {out : PyDict (List OutRel)} {inc : PyDict (List InRel)}
    {exec : String → Except String (List Row)}
    {gsB : List NeighborGroup} {trB : List String}
    (h : neighborsCore g l i "both" rt out inc exec = (.ok gsB, trB)) :
    isOkE (neighborsCore g l i "outgoing" rt out inc exec).1 = true ∧
    isOkE (neighborsCore g l i "incoming" rt out inc exec).1 = true ∧
    (∀ gsO gsI : List NeighborGroup,
      (neighborsCore g l i "outgoing" rt out inc exec).1 = .ok gsO →
      (neighborsCore g l i "incoming" rt out inc exec).1 = .ok gsI →
      gsB = gsO ++ gsI) := by
  rw [core_both_split] at h
  rcases ho : (neighborsCore g l i "outgoing" rt out inc exec).1 with e | g1
  · rw [ho] at h
    simp at h
  · rw [ho] at h
    rcases hi2 : (neighborsCore g l i "incoming" rt out inc exec).1 with e | g2
    · rw [hi2] at h
      simp [Except.map] at h
    · rw [hi2] at h
      simp only [Except.map, Prod.mk.injEq, Except.ok.injEq] at h
      refine ⟨by simp [isOkE], by simp [isOkE], ?_⟩
      intro gsO gsI h1 h2
      simp only [Except.ok.injEq] at h1 h2
      rw [← h.1, h1, h2]

theorem outPhase_isOk (g l i d : String) (rt : Option String)
    (out : PyDict (List OutRel)) (exec : String → Except String (List Row)) :
    isOkE (outPhase g l i d rt out exec).1 =
      (selectedOutQueries g l i d rt out).all (fun q => isOkE (exec q)) := by
  unfold outPhase selectedOutQueries
  by_cases hg : ((d == "both" || d == "outgoing") && dictHas out l) = true
  · rw [if_pos hg, if_pos hg]
    exact runOutRels_isOk g l i rt exec _ [] []
  · rw [if_neg hg, if_neg hg]
    simp [isOkE]

theorem inPhase_isOk (g l i d : String) (rt : Option String)
    (inc : PyDict (List InRel)) (exec : String → Except String (List Row))
    (acc : List NeighborGroup) (tr : List String) :
    isOkE (inPhase g l i d rt inc exec acc tr).1 =
      (selectedInQueries g l i d rt inc).all (fun q => isOkE (exec q)) := by
  unfold inPhase selectedInQueries
  by_cases hg : ((d == "both" || d == "incoming") && dictHas inc l) = true
  · rw [if_pos hg, if_pos hg]
    exact runInRels_isOk g l i rt exec _ acc tr
  · rw [if_neg hg, if_neg hg]
    simp [isOkE]

theorem core_isOk (g l i d : String) (rt : Option String)
    (out : PyDict (List OutRel)) (inc : PyDict (List InRel))
    (exec : String → Except String (List Row)) :
    isOkE (neighborsCore g l i d rt out inc exec).1 =
      (selectedQueries g l i d rt out inc).all (fun q => isOkE (exec q)) := by
  rcases hp : outPhase g l i d rt out exec with ⟨r, tr⟩
  have h1 := outPhase_isOk g l i d rt out exec
  rw [hp] at h1
  unfold neighborsCore selectedQueries
  rw [hp, List.all_append]
  cases r with
  | error e =>
    show isOkE (Except.error e : Except String (List NeighborGroup)) = _
    rw [← h1]
    simp [isOkE]
  | ok acc =>
    show isOkE (inPhase g l i d rt inc exec acc tr).1 = _
    rw [inPhase_isOk, ← h1]
    simp [isOkE]

/-- C3: for a fixed index and valid label/id, a `direction="outgoing"`
request yields only outgoing-tagged groups, a `direction="incoming"` request
only incoming-tagged ones, and a successful `direction="both"` request yields
exactly the outgoing-run list followed by the incoming-run list (both
sub-runs necessarily succeed). -/
theorem c3_direction_consistency :
    ∀ (g lab idv : String) (rt : Option String) (out : PyDict (List OutRel))
      (inc : PyDict (List InRel)) (exec : String → Except String (List Row)),
      lab ≠ "" → idv ≠ "" →
      (∀ (gs : List NeighborGroup) (b : Bool) (tr : List String),
        get_neighbors (some ⟨some lab, some idv, some "outgoing", rt⟩) g out
            inc (.ok ()) exec = (.results gs, b, tr) →
        ∀ x ∈ gs, x.direction = "outgoing") ∧
      (∀ (gs : List NeighborGroup) (b : Bool) (tr : List String),
        get_neighbors (some ⟨some lab, some idv, some "incoming", rt⟩) g out
            inc (.ok ()) exec = (.results gs, b, tr) →
        ∀ x ∈ gs, x.direction = "incoming") ∧
      (∀ (gsB : List NeighborGroup) (bB : Bool) (trB : List String),
        get_neighbors (some ⟨some lab, some idv, some "both", rt⟩) g out inc
            (.ok ()) exec = (.results gsB, bB, trB) →
        (get_neighbors (some ⟨some lab, some idv, some "outgoing", rt⟩) g out
            inc (.ok ()) exec).1.resultList.isSome = true ∧
        (get_neighbors (some ⟨some lab, some idv, some "incoming", rt⟩) g out
            inc (.ok ()) exec).1.resultList.isSome = true) ∧
      (∀ (gsB gsO gsI : List NeighborGroup) (bB bO bI : Bool)
          (trB trO trI : List String),
        get_neighbors (some ⟨some lab, some idv, some "both", rt⟩) g out inc
            (.ok ()) exec = (.results gsB, bB, trB) →
        get_neighbors (some ⟨some lab, some idv, some "outgoing", rt⟩) g out
            inc (.ok ()) exec = (.results gsO, bO, trO) →
        get_neighbors (some ⟨some lab, some idv, some "incoming", rt⟩) g out
            inc (.ok ()) exec = (.results gsI, bI, trI) →
        gsB = gsO ++ gsI) := by
  intro g lab idv rt out inc exec hl hi
  refine ⟨?_, ?_, ?_, ?_⟩
  · intro gs b tr h
    exact core_outgoing_direction (core_of_handler_results hl hi h)
  · intro gs b tr h
    exact core_incoming_direction (core_of_handler_results hl hi h)
  · intro gsB bB trB h
    obtain ⟨ho, hi2, -⟩ :=
      core_both_components (core_of_handler_results hl hi h)
    constructor
    · rcases hc : neighborsCore g lab idv "outgoing" rt out inc exec
        with ⟨r, tr0⟩
      cases r with
      | error e =>
        rw [hc] at ho
        simp [isOkE] at ho
      | ok acc =>
        rw [handler_of_core_ok hl hi hc]
        rfl
    · rcases hc : neighborsCore g lab idv "incoming" rt out inc exec
        with ⟨r, tr0⟩
      cases r with
      | error e =>
        rw [hc] at hi2
        simp [isOkE] at hi2
      | ok acc =>
        rw [handler_of_core_ok hl hi hc]
        rfl
  · intro gsB gsO gsI bB bO bI trB trO trI hB hO hI
    obtain ⟨-, -, hcat⟩ :=
      core_both_components (core_of_handler_results hl hi hB)
    have h1 := core_of_handler_results hl hi hO
    have h2 := core_of_handler_results hl hi hI
    exact hcat gsO gsI (by rw [h1]) (by rw [h2])

/-- Witness for C3 on a two-descriptor outgoing list and one incoming
descriptor, all executions succeeding: the both-run list is the outgoing-run
list followed by the incoming-run list. -/
theorem c3_direction_consistency_witness :
    (("Patient" : String) ≠ "" ∧ ("42" : String) ≠ "") ∧
    ([NeighborGroup.outG "TAKES" "Drug" [["n"]],
      NeighborGroup.outG "SEES" "Doctor" [["n"]],
      NeighborGroup.inG "EMPLOYS" "Hospital" [["n"]]] =
     [NeighborGroup.outG "TAKES" "Drug" [["n"]],
      NeighborGroup.outG "SEES" "Doctor" [["n"]]] ++
     [NeighborGroup.inG "EMPLOYS" "Hospital" [["n"]]]) :=
  ⟨⟨by decide, by decide⟩,
    (c3_direction_consistency "g" "Patient" "42" none
        [("Patient", [⟨"TAKES", "Drug"⟩, ⟨"SEES", "Doctor"⟩])]
        [("Patient", [⟨"EMPLOYS", "Hospital"⟩])]
        (fun _ => .ok [["n"]]) (by decide) (by decide)).2.2.2
      _ _ _ _ _ _ _ _ _ rfl rfl rfl⟩

/-- C6: when the label or the id of a neighbor request is missing (or
empty), the handler returns the validation error with status 400, touches
`initialize_db` not at all (second component `false`), and hands no query to
the engine (empty trace), for every initialization outcome and engine
behavior. -/
theorem c6_missing_params_validation :
    ∀ (req : NeighborRequest) (g : String) (out : PyDict (List OutRel))
      (inc : PyDict (List InRel)) (initOutcome : Except String Unit)
      (exec : String → Except String (List Row)),
      (pyTruthy req.label = false ∨ pyTruthy req.id = false) →
      get_neighbors (some req) g out inc initOutcome exec =
        (.error "node_label and node_id are required" 400, false, []) := by
  intro req g out inc io exec h
  have hcond : (!pyTruthy req.label || !pyTruthy req.id) = true := by
    rcases h with h | h <;> simp [h]
  simp [get_neighbors, hcond]

/-- Witness for C6: a request without a label, against a failing database,
still gets the validation error without any initialization. -/
theorem c6_missing_params_validation_witness :
    get_neighbors (some ⟨none, some "42", none, none⟩) "g" [] []
        (.error "database down") (fun _ => .ok []) =
      (.error "node_label and node_id are required" 400, false, []) :=
  c6_missing_params_validation ⟨none, some "42", none, none⟩ "g" [] []
    (.error "database down") (fun _ => .ok []) (Or.inl rfl)

/-- C7: if the engine fails on any query the request actually renders (any
selected descriptor), the whole request returns an error response with
status 500 and no results list at all — the groups accumulated before the
failure are discarded. -/
theorem c7_execution_error_all_or_nothing :
    ∀ (g lab idv d : String) (rt : Option String)
      (out : PyDict (List OutRel)) (inc : PyDict (List InRel))
      (exec : String → Except String (List Row)) (q : String),
      lab ≠ "" → idv ≠ "" →
      q ∈ selectedQueries g lab idv d rt out inc →
      isOkE (exec q) = false →
      (get_neighbors (some ⟨some lab, some idv, some d, rt⟩) g out inc
          (.ok ()) exec).1.resultList = none ∧
      (get_neighbors (some ⟨some lab, some idv, some d, rt⟩) g out inc
          (.ok ()) exec).1.statusCode = some 500 := by
  intro g lab idv d rt out inc exec q hl hi hq hfail
  have hall : (selectedQueries g lab idv d rt out inc).all
      (fun q => isOkE (exec q)) = false := by
    rcases hcase : (selectedQueries g lab idv d rt out inc).all
        (fun q => isOkE (exec q)) with _ | _
    · rfl
    · have := List.all_eq_true.mp hcase q hq
      rw [hfail] at this
      cases this
  have hko : isOkE (neighborsCore g lab idv d rt out inc exec).1 = false := by
    rw [core_isOk]
    exact hall
  rcases hc : neighborsCore g lab idv d rt out inc exec with ⟨r, tr⟩
  cases r with
  | ok acc =>
    rw [hc] at hko
    simp [isOkE] at hko
  | error e =>
    rw [handler_of_core_err hl hi hc]
    exact ⟨rfl, rfl⟩

set_option maxRecDepth 8192 in
/-- Witness for C7: one selected outgoing query, failing execution — the
response is an error with no results. -/
theorem c7_execution_error_all_or_nothing_witness :
    renderOutQuery "g" "Patient" "42" "TAKES" "Drug" ∈
      selectedQueries "g" "Patient" "42" "both" none
        [("Patient", [⟨"TAKES", "Drug"⟩])] [] ∧
    (get_neighbors (some ⟨some "Patient", some "42", some "both", none⟩) "g"
        [("Patient", [⟨"TAKES", "Drug"⟩])] [] (.ok ())
        (fun _ => .error "Parser Error")).1.resultList = none ∧
    (get_neighbors (some ⟨some "Patient", some "42", some "both", none⟩) "g"
        [("Patient", [⟨"TAKES", "Drug"⟩])] [] (.ok ())
        (fun _ => .error "Parser Error")).1.statusCode = some 500 :=
  ⟨by decide,
    c7_execution_error_all_or_nothing "g" "Patient" "42" "both" none
      [("Patient", [⟨"TAKES", "Drug"⟩])] []
      (fun _ => .error "Parser Error")
      (renderOutQuery "g" "Patient" "42" "TAKES" "Drug")
      (by decide) (by decide) (by decide) rfl⟩

/-- C10: with label and id present, an unrecognized direction string, or a
label that is a key of neither map, makes the handler return a success
response with an empty results list, executing no graph query — never a
validation error. -/
theorem c10_unmatched_returns_empty :
    ∀ (g lab idv d : String) (rt : Option String)
      (out : PyDict (List OutRel)) (inc : PyDict (List InRel))
      (exec : String → Except String (List Row)),
      lab ≠ "" → idv ≠ "" →
      ((d ≠ "both" ∧ d ≠ "outgoing" ∧ d ≠ "incoming") ∨
        (dictHas out lab = false ∧ dictHas inc lab = false)) →
      get_neighbors (some ⟨some lab, some idv, some d, rt⟩) g out inc
        (.ok ()) exec = (.results [], true, []) := by
  intro g lab idv d rt out inc exec hl hi hcase
  have hcore : neighborsCore g lab idv d rt out inc exec = (.ok [], []) := by
    unfold neighborsCore outPhase inPhase
    rcases hcase with ⟨h1, h2, h3⟩ | ⟨h1, h2⟩
    · simp [h1, h2, h3]
    · simp [h1, h2]
  rw [handler_of_core_ok hl hi hcore]

/-- Witness for C10: a typo direction `"sideways"` on a populated index, and
a valid direction with an unknown label, both give empty success results. -/
theorem c10_unmatched_returns_empty_witness :
    get_neighbors (some ⟨some "Patient", some "42", some "sideways", none⟩)
        "g" [("Patient", [⟨"TAKES", "Drug"⟩])]
        [("Patient", [⟨"EMPLOYS", "Hospital"⟩])] (.ok ())
        (fun _ => .ok [["n"]]) = (.results [], true, []) ∧
    get_neighbors (some ⟨some "Ghost", some "42", some "both", none⟩)
        "g" [("Patient", [⟨"TAKES", "Drug"⟩])]
        [("Patient", [⟨"EMPLOYS", "Hospital"⟩])] (.ok ())
        (fun _ => .ok [["n"]]) = (.results [], true, []) :=
  ⟨c10_unmatched_returns_empty "g" "Patient" "42" "sideways" none
      [("Patient", [⟨"TAKES", "Drug"⟩])]
      [("Patient", [⟨"EMPLOYS", "Hospital"⟩])] (fun _ => .ok [["n"]])
      (by decide) (by decide) (Or.inl ⟨by decide, by decide, by decide⟩),
    c10_unmatched_returns_empty "g" "Ghost" "42" "both" none
      [("Patient", [⟨"TAKES", "Drug"⟩])]
      [("Patient", [⟨"EMPLOYS", "Hospital"⟩])] (fun _ => .ok [["n"]])
      (by decide) (by decide) (Or.inr ⟨by decide, by decide⟩)⟩

/-! ### Helper lemmas about the row conversion of execute_query -/

theorem pyDictSet_fresh {m : PyDict String} {k : String} (v : String)
    (h : k ∉ m.map Prod.fst) : pyDictSet m k v = m ++ [(k, v)] := by
  induction m with
  | nil => rfl
  | cons hd rest ih =>
    obtain ⟨k0, v0⟩ := hd
    simp only [List.map_cons, List.mem_cons] at h
    push_neg at h
    obtain ⟨h1, h2⟩ := h
    simp only [pyDictSet]
    rw [if_neg (fun he => h1 he.symm), ih h2]
    simp

theorem foldl_pyDictSet_fresh (names : List String) :
    ∀ (l : List (Nat × String)) (acc : PyDict String),
      (l.map (fun p => colName names p.1)).Nodup →
      (∀ p ∈ l, colName names p.1 ∉ acc.map Prod.fst) →
      l.foldl (fun d p => pyDictSet d (colName names p.1) p.2) acc =
        acc ++ l.map (fun p => (colName names p.1, p.2)) := by
  intro l
  induction l with
  | nil =>
    intro acc h1 h2
    simp
  | cons p rest ih =>
    intro acc h1 h2
    simp only [List.map_cons, List.nodup_cons] at h1
    obtain ⟨hnotin, hnodup⟩ := h1
    have hfresh : colName names p.1 ∉ acc.map Prod.fst :=
      h2 p (List.mem_cons_self _ _)
    simp only [List.foldl_cons]
    rw [pyDictSet_fresh p.2 hfresh,
      ih (acc ++ [(colName names p.1, p.2)]) hnodup ?_]
    · simp
    · intro q hq
      simp only [List.map_append, List.mem_append, List.map_cons,
        List.map_nil, List.mem_singleton]
      rintro (hmem | hmem)
      · exact h2 q (List.mem_cons_of_mem _ hq) hmem
      · exact hnotin (hmem ▸ List.mem_map_of_mem _ hq)

theorem rowToDict_nodup (names : List String) (row : List String)
    (h : ((List.range row.length).map (colName names)).Nodup) :
    rowToDict names row =
      row.enum.map (fun p => (colName names p.1, p.2)) := by
  have henum : row.enum.map (fun p => colName names p.1) =
      (List.range row.length).map (colName names) := by
    rw [show (fun p : Nat × String => colName names p.1) =
        (colName names) ∘ Prod.fst from rfl, ← List.map_map,
      List.enum_map_fst]
  unfold rowToDict
  rw [foldl_pyDictSet_fresh names row.enum [] (by rw [henum]; exact h)
    (by intro p hp; simp)]
  simp

/-- C9 counterexample: with a duplicate column name `a` at two positions, the
returned mapping for the row `("1", "2")` contains only `a ↦ "2"` — the
0-th value `"1"` is not bound to the 0-th column name in the produced
mapping, so the i-th value is not always bound to the i-th column name. -/
theorem c9_duplicate_column_counterexample :
    execute_query (some "SELECT 1 AS a, 2 AS a") (.ok ())
        (.ok ([["1", "2"]], some ["a", "a"])) =
      .results [[("a", "2")]] ∧
    ("a", "1") ∉ rowToDict ["a", "a"] ["1", "2"] := by
  decide

/-- C9 amended: `execute_query` converts the rows to ordered field-name→value
mappings whose key at position `i` is the schema name at `i`, with the
synthetic fallback `col<i>` when position `i` is beyond the schema (hence for
every position when the schema is empty); provided the effective column names
are pairwise distinct, the i-th value of each row is bound to the i-th column
name, while a duplicated name retains only the value at its last
occurrence. -/
theorem c9_row_mapping_amended :
    (∀ (q : String) (rows : List Row) (desc : Option (List String)),
        q ≠ "" →
        execute_query (some q) (.ok ()) (.ok (rows, desc)) =
          .results (rows.map (rowToDict (desc.getD [])))) ∧
    (∀ (names : List String) (row : List String),
        ((List.range row.length).map (colName names)).Nodup →
        rowToDict names row =
          row.enum.map (fun p => (colName names p.1, p.2))) ∧
    (∀ i : Nat, colName [] i = "col" ++ toString i) := by
  refine ⟨?_, rowToDict_nodup, ?_⟩
  · intro q rows desc hq
    have hqt : pyTruthy (some q) = true := by simp [pyTruthy, hq]
    simp [execute_query, hqt]
  · intro i
    simp [colName]

/-- Witness for the amended C9: distinct column names bind positionally, both
directly and through the handler. -/
theorem c9_row_mapping_amended_witness :
    rowToDict ["x", "y"] ["1", "2"] = [("x", "1"), ("y", "2")] ∧
    execute_query (some "SELECT 1, 2") (.ok ())
        (.ok ([["1", "2"]], some ["x", "y"])) =
      .results [[("x", "1"), ("y", "2")]] := by
  constructor
  · rw [c9_row_mapping_amended.2.1 ["x", "y"] ["1", "2"] (by decide)]
    decide
  · rw [c9_row_mapping_amended.1 "SELECT 1, 2" [["1", "2"]]
      (some ["x", "y"]) (by decide)]
    decide

end NvlDuck
